import Mathlib

/-!
Shallow embedding of the kafka-orchestrator sidecar (Go) health-check engine,
topology resolver, SASL option selection and cgroup memory readers, with
theorems settling the spec claims C1..C10.

Modelling conventions:
* Go `int32`/`int` values are Lean `Int` (overflow never occurs on the paths
  modelled; `strconv` range checks are modelled explicitly).
* Go `(T, error)` returns are `Except String T`; error strings follow the
  `fmt.Errorf` formats of the source.
* The franz-go admin client is modelled as a record of the results its two
  capability calls would return (`Metadata`, `DescribeBrokerLogDirs`); each
  Go call site reads the corresponding field.
* The readiness/liveness evaluators are instrumented with a trace listing
  which of the four checks were invoked, mirroring the call-count
  assertions the spec asks for.
-/

/-- One entry of `kadm.Metadata.Brokers`; only `NodeID` is consulted by the
checker (`broker.NodeID == c.brokerID`). -/
structure BrokerDetail where
  NodeID : Int
  deriving Repr, DecidableEq

/-- `kadm.PartitionDetail`: the fields the checker reads (`Replicas`, `ISR`). -/
structure PartitionDetail where
  Replicas : List Int
  ISR : List Int
  deriving Repr, DecidableEq

/-- `kadm.TopicDetail`: its partition map, as a list (iteration order does not
affect any result proved below). -/
structure TopicDetail where
  Partitions : List PartitionDetail
  deriving Repr, DecidableEq

/-- `kadm.Metadata`: registered brokers, elected controller (negative sentinel
for none), topics. -/
structure Metadata where
  Brokers : List BrokerDetail
  Controller : Int
  Topics : List TopicDetail
  deriving Repr, DecidableEq

/-- `kadm.DescribedLogDirPartition`: the checker reads only `IsFuture`. -/
structure DescribedLogDirPartition where
  IsFuture : Bool
  deriving Repr, DecidableEq

/-- `kadm.DescribedLogDir`: directory-level error and partition placements
(the per-topic map flattened to a list of placements). -/
structure DescribedLogDir where
  Err : Option String
  Partitions : List DescribedLogDirPartition
  deriving Repr, DecidableEq

/-- `kadm.DescribedLogDirs`: map from directory path to descriptor, as a list
of descriptors (paths do not influence the checker). -/
abbrev DescribedLogDirs : Type := List DescribedLogDir

/-- `kadm.DescribedLogDirs.Error`: first directory-level error, if any. -/
def DescribedLogDirs.Error (ds : DescribedLogDirs) : Option String :=
  ds.findSome? (fun d => d.Err)

/-- `kadm.DescribedLogDirs.EachPartition` specialised to the only use in the
source: does any placement in any directory have `IsFuture` set? -/
def DescribedLogDirs.anyFuture (ds : DescribedLogDirs) : Bool :=
  ds.any (fun d => d.Partitions.any (fun p => p.IsFuture))

/-- The admin-client capability surface (`KafkaAdminClient`): the snapshot a
`Metadata` call returns and the result a `DescribeBrokerLogDirs` call for this
checker's broker returns. -/
structure AdminClient where
  metadataResult : Except String Metadata
  logDirsResult : Except String DescribedLogDirs

/-- `health.CheckResult`. -/
structure CheckResult where
  Healthy : Bool
  Message : String
  deriving Repr, DecidableEq

/-- The four checks of the health evaluator, for instrumenting which checks an
evaluation invokes. -/
inductive CheckName where
  | registration
  | controllerElection
  | replicaSync
  | logDirHealth
  deriving Repr, DecidableEq

/-- `Checker.BrokerInMetadata`: is `brokerID` among the snapshot's brokers? -/
def BrokerInMetadata (brokerID : Int) (adm : AdminClient) : Except String Bool :=
  match adm.metadataResult with
  | .error e => .error ("failed to fetch metadata: " ++ e)
  | .ok md => .ok (md.Brokers.any (fun b => b.NodeID == brokerID))

/-- `Checker.ControllerElected`: `metadata.Controller >= 0`. -/
def ControllerElected (adm : AdminClient) : Except String Bool :=
  match adm.metadataResult with
  | .error e => .error ("failed to fetch metadata: " ++ e)
  | .ok md => .ok (md.Controller ≥ 0)

/-- The nested counting loop of `Checker.UnderReplicatedPartitions`: for every
partition of every topic, count it when this broker is a replica but not in
the ISR. -/
def underReplicatedCount (brokerID : Int) (md : Metadata) : Nat :=
  md.Topics.foldl
    (fun acc topic =>
      topic.Partitions.foldl
        (fun acc partition =>
          let isReplica := partition.Replicas.any (fun r => r == brokerID)
          if !isReplica then acc
          else
            let inISR := partition.ISR.any (fun r => r == brokerID)
            if !inISR then acc + 1 else acc)
        acc)
    0

/-- `Checker.UnderReplicatedPartitions`: fetch metadata, then count. -/
def UnderReplicatedPartitions (brokerID : Int) (adm : AdminClient) :
    Except String Nat :=
  match adm.metadataResult with
  | .error e => .error ("failed to fetch metadata: " ++ e)
  | .ok md => .ok (underReplicatedCount brokerID md)

/-- `Checker.LogDirsHealthy`: a failed describe call propagates as an error;
a directory-level error or any future placement is a structural `false`. -/
def LogDirsHealthy (adm : AdminClient) : Except String Bool :=
  match adm.logDirsResult with
  | .error e => .error ("failed to describe log dirs: " ++ e)
  | .ok ds =>
    match ds.Error with
    | some _ => .ok false
    | none => .ok (!ds.anyFuture)

/-- `Checker.CheckLiveness`, instrumented with the list of checks invoked.
The factory result models `c.clientFactory()`. -/
def CheckLiveness (brokerID : Int) (factory : Except String AdminClient) :
    CheckResult × List CheckName :=
  match factory with
  | .error e => (⟨false, e⟩, [])
  | .ok adm =>
    match BrokerInMetadata brokerID adm with
    | .error e => (⟨false, e⟩, [.registration])
    | .ok brokerFound =>
      if !brokerFound then
        (⟨false, "broker not found in cluster metadata"⟩, [.registration])
      else
        (⟨true, ""⟩, [.registration])

/-- `Checker.CheckReadiness`, instrumented with the list of checks invoked,
in invocation order. -/
def CheckReadiness (brokerID : Int) (factory : Except String AdminClient) :
    CheckResult × List CheckName :=
  match factory with
  | .error e => (⟨false, e⟩, [])
  | .ok adm =>
    match BrokerInMetadata brokerID adm with
    | .error e => (⟨false, e⟩, [.registration])
    | .ok brokerRegistered =>
      if !brokerRegistered then
        (⟨false, "broker not registered in cluster metadata"⟩, [.registration])
      else
        match ControllerElected adm with
        | .error e => (⟨false, e⟩, [.registration, .controllerElection])
        | .ok controllerOk =>
          if !controllerOk then
            (⟨false, "no controller elected"⟩, [.registration, .controllerElection])
          else
            match UnderReplicatedPartitions brokerID adm with
            | .error e =>
              (⟨false, e⟩, [.registration, .controllerElection, .replicaSync])
            | .ok underReplicated =>
              if underReplicated > 0 then
                (⟨false, "broker has under-replicated partitions"⟩,
                  [.registration, .controllerElection, .replicaSync])
              else
                match LogDirsHealthy adm with
                | .error e =>
                  (⟨false, e⟩,
                    [.registration, .controllerElection, .replicaSync, .logDirHealth])
                | .ok logDirsOk =>
                  if !logDirsOk then
                    (⟨false, "log directories unhealthy"⟩,
                      [.registration, .controllerElection, .replicaSync, .logDirHealth])
                  else
                    (⟨true, ""⟩,
                      [.registration, .controllerElection, .replicaSync, .logDirHealth])

/-- `health.ReadinessResponse` (HTTP body of `GET /health/ready`). -/
structure ReadinessResponse where
  Status : String
  BrokerID : Int
  BrokerRegistered : Bool
  ControllerElected : Bool
  UnderReplicatedPartitions : Int
  LogDirsHealthy : Bool
  ErrorMessage : String
  deriving Repr, DecidableEq

/-- `Checker.ReadinessHandler`: the response body and HTTP status code
(200 or 503) produced for a readiness probe. -/
def ReadinessHandler (brokerID : Int) (factory : Except String AdminClient) :
    ReadinessResponse × Nat :=
  let response : ReadinessResponse :=
    ⟨"", brokerID, false, false, 0, false, ""⟩
  match factory with
  | .error e => ({ response with Status := "unhealthy", ErrorMessage := e }, 503)
  | .ok adm =>
    match BrokerInMetadata brokerID adm with
    | .error e => ({ response with Status := "unhealthy", ErrorMessage := e }, 503)
    | .ok brokerRegistered =>
      let response := { response with BrokerRegistered := brokerRegistered }
      if !brokerRegistered then
        ({ response with
            Status := "unhealthy"
            ErrorMessage := "broker not registered in cluster metadata" }, 503)
      else
        match ControllerElected adm with
        | .error e =>
          ({ response with Status := "unhealthy", ErrorMessage := e }, 503)
        | .ok controllerOk =>
          let response := { response with ControllerElected := controllerOk }
          if !controllerOk then
            ({ response with
                Status := "unhealthy"
                ErrorMessage := "no controller elected" }, 503)
          else
            match UnderReplicatedPartitions brokerID adm with
            | .error e =>
              ({ response with Status := "unhealthy", ErrorMessage := e }, 503)
            | .ok underReplicated =>
              let response :=
                { response with UnderReplicatedPartitions := (underReplicated : Int) }
              if underReplicated > 0 then
                ({ response with
                    Status := "unhealthy"
                    ErrorMessage := "broker has under-replicated partitions" }, 503)
              else
                match LogDirsHealthy adm with
                | .error e =>
                  ({ response with Status := "unhealthy", ErrorMessage := e }, 503)
                | .ok logDirsOk =>
                  let response := { response with LogDirsHealthy := logDirsOk }
                  if !logDirsOk then
                    ({ response with
                        Status := "unhealthy"
                        ErrorMessage :=
                          "log directories unhealthy (future partitions detected)" },
                      503)
                  else
                    ({ response with Status := "healthy" }, 200)

/-! ### Topology resolver (`pkg/sidecar/discovery`) -/

/-- `strings.LastIndex(s, "-")` on the character list of a string: index of the
last occurrence, if any. (The delimiter is one ASCII byte, so byte and
character indexing agree.) -/
def lastIndexOf (c : Char) : List Char → Option Nat
  | [] => none
  | x :: xs =>
    match lastIndexOf c xs with
    | some i => some (i + 1)
    | none => if x = c then some 0 else none

/-- Decimal value of a digit run (used by the `strconv` models below). -/
def digitsVal (cs : List Char) : Nat :=
  cs.foldl (fun acc c => acc * 10 + (c.toNat - '0'.toNat)) 0

/-- `strconv.ParseUint(s, 10, 64)`: nonempty, all base-10 digits, value below
2^64; `none` models both syntax and range errors (the callers treat any
error alike). -/
def goParseUint64 (cs : List Char) : Option Nat :=
  if cs.isEmpty then none
  else if cs.all Char.isDigit then
    let v := digitsVal cs
    if v < 2 ^ 64 then some v else none
  else none

/-- `strconv.ParseInt(s, 10, 32)`: optional sign, nonempty digit run, result
within the 32-bit signed range. -/
def goParseInt32 (cs : List Char) : Option Int :=
  match cs with
  | [] => none
  | c :: rest =>
    let signDigits : Bool × List Char :=
      if c = '+' then (false, rest)
      else if c = '-' then (true, rest)
      else (false, cs)
    match signDigits with
    | (neg, digits) =>
      if digits.isEmpty then none
      else if digits.all Char.isDigit then
        let v := digitsVal digits
        if neg then
          if v ≤ 2 ^ 31 then some (-(v : Int)) else none
        else
          if v < 2 ^ 31 then some (v : Int) else none
      else none

/-- `discovery.ParseBrokerIDFromHostname`: take everything after the last
hyphen and parse it as a base-10 32-bit integer. -/
def ParseBrokerIDFromHostname (hostname : String) : Except String Int :=
  let cs := hostname.data
  match lastIndexOf '-' cs with
  | none => .error ("invalid hostname format (no hyphen): " ++ hostname)
  | some lastHyphen =>
    if lastHyphen = cs.length - 1 then
      .error ("invalid hostname format (trailing hyphen): " ++ hostname)
    else
      match goParseInt32 (cs.drop (lastHyphen + 1)) with
      | none =>
        .error ("failed to parse replica index from hostname " ++ hostname)
      | some index => .ok index

/-- The address `fmt.Sprintf` produces for replica `i` in
`discovery.BuildBootstrapServers`. -/
def bootstrapAddress (workloadName location gvcName : String) (port : Int)
    (i : Nat) : String :=
  "replica-" ++ toString i ++ "." ++ workloadName ++ "." ++ location ++ "." ++
    gvcName ++ ".cpln.local:" ++ toString port

/-- `strings.Join`: empty for no elements, else the first element followed by
separator-element pairs (so never a trailing separator). -/
def goStringsJoin (elems : List String) (sep : String) : String :=
  match elems with
  | [] => ""
  | first :: rest => rest.foldl (fun acc s => acc ++ sep ++ s) first

/-- `discovery.BuildBootstrapServers`: normalize non-positive replica counts
to 1, generate one address per replica index, join with commas. -/
def BuildBootstrapServers (workloadName location gvcName : String)
    (replicaCount : Int) (port : Int) : String :=
  let n : Int := if replicaCount ≤ 0 then 1 else replicaCount
  goStringsJoin
    ((List.range n.toNat).map (bootstrapAddress workloadName location gvcName port))
    ","

/-! ### SASL option selection (`health.getSASLOpt`) -/

/-- `health.SASLConfig`. -/
structure SASLConfig where
  Enabled : Bool
  Mechanism : String
  Username : String
  Password : String
  deriving Repr, DecidableEq

/-- The three `kgo.SASL` options the factory can produce, tagged by
mechanism, carrying the credential. -/
inductive SASLOpt where
  | plainMech (user pass : String)
  | scramSha256 (user pass : String)
  | scramSha512 (user pass : String)
  deriving Repr, DecidableEq

/-- `strings.ToUpper`, modelled on its ASCII fragment (character-wise
upper-casing), which covers every mechanism name the selector compares
against. -/
def goToUpper (s : String) : String :=
  String.mk (s.data.map Char.toUpper)

/-- `Checker.getSASLOpt`: upper-case the configured mechanism and select the
matching option; anything else is an unsupported-mechanism error. -/
def getSASLOpt (cfg : SASLConfig) : Except String SASLOpt :=
  let mechanism := goToUpper cfg.Mechanism
  if mechanism = "PLAIN" then
    .ok (.plainMech cfg.Username cfg.Password)
  else if mechanism = "SCRAM-SHA-256" then
    .ok (.scramSha256 cfg.Username cfg.Password)
  else if mechanism = "SCRAM-SHA-512" then
    .ok (.scramSha512 cfg.Username cfg.Password)
  else
    .error ("unsupported SASL mechanism: " ++ mechanism ++
      " (supported: PLAIN, SCRAM-SHA-256, SCRAM-SHA-512)")

/-! ### Memory metrics readers (`pkg/sidecar/metrics`) -/

/-- ASCII fragment of `unicode.IsSpace`, the class both `strings.TrimSpace`
and `strings.Fields` split on. -/
def goIsSpace (c : Char) : Bool :=
  c = ' ' ∨ c = '\t' ∨ c = '\n' ∨ c = '\r' ∨ c = '\x0b' ∨ c = '\x0c'

/-- `strings.TrimSpace`: drop leading and trailing whitespace. -/
def goTrimSpace (s : String) : String :=
  String.mk (((s.data.dropWhile goIsSpace).reverse.dropWhile goIsSpace).reverse)

/-- `strings.Fields`: whitespace-separated runs, no empty fields. -/
def goFields (cs : List Char) : List (List Char) :=
  (cs.foldr
    (fun c acc =>
      if goIsSpace c then [] :: acc
      else
        match acc with
        | [] => [[c]]
        | w :: ws => (c :: w) :: ws)
    []).filter (fun w => !w.isEmpty)

/-- `metrics.readUint64FromFile`, applied to the file's content: trim, treat
the literal token `max` as 0 (no limit), otherwise parse as `uint64`. -/
def readUint64FromFile (content : String) : Except String Nat :=
  let value := goTrimSpace content
  if value = "max" then .ok 0
  else
    match goParseUint64 value.data with
    | some v => .ok v
    | none => .error ("invalid uint64 value: " ++ value)

/-- The statistics-file parse loop shared verbatim by
`CgroupV1Reader.readMemoryStat` and `CgroupV2Reader.readMemoryStat` (the two
Go methods are textually identical): lines that are not exactly `name value`
with an integer value are skipped; later lines overwrite earlier ones; a
missing key reads as 0 (Go map zero value). -/
def readMemoryStat (lines : List String) : String → Nat :=
  lines.foldl
    (fun stats line =>
      match goFields line.data with
      | [key, valueField] =>
        match goParseUint64 valueField with
        | some value => fun k => if k = String.mk key then value else stats k
        | none => stats
      | _ => stats)
    (fun _ => 0)

/-- `metrics.MemoryMetrics`. Ratios (Go `float64` quotients) are modelled as
exact rationals. -/
structure MemoryMetrics where
  Usage : Nat
  Limit : Nat
  RSS : Nat
  InactiveFile : Nat
  WorkingSet : Nat
  OOMRatio : ℚ
  OOMFloorRatio : ℚ
  deriving Repr, DecidableEq

/-- The derived-metrics computation shared by both readers (the two identical
trailing blocks of the Go `ReadMemoryMetrics` bodies): `WorkingSet` stays 0
unless `Usage >= InactiveFile`; the ratios stay 0 unless `Limit > 0`. -/
def deriveMemoryMetrics (usage limit rss inactiveFile : Nat) : MemoryMetrics :=
  let workingSet := if usage ≥ inactiveFile then usage - inactiveFile else 0
  if limit > 0 then
    ⟨usage, limit, rss, inactiveFile, workingSet,
      (workingSet : ℚ) / (limit : ℚ), (rss : ℚ) / (limit : ℚ)⟩
  else
    ⟨usage, limit, rss, inactiveFile, workingSet, 0, 0⟩

/-- `CgroupV1Reader.ReadMemoryMetrics`, applied to the contents of
`memory.usage_in_bytes`, `memory.limit_in_bytes` and the lines of
`memory.stat`; RSS comes from the `rss` key. -/
def CgroupV1ReadMemoryMetrics (usageContent limitContent : String)
    (statLines : List String) : Except String MemoryMetrics :=
  match readUint64FromFile usageContent with
  | .error e => .error ("failed to read memory usage: " ++ e)
  | .ok usage =>
    match readUint64FromFile limitContent with
    | .error e => .error ("failed to read memory limit: " ++ e)
    | .ok limit =>
      let stats := readMemoryStat statLines
      .ok (deriveMemoryMetrics usage limit (stats "rss") (stats "inactive_file"))

/-- `CgroupV2Reader.ReadMemoryMetrics`, applied to the contents of
`memory.current`, `memory.max` and the lines of `memory.stat`; RSS comes from
the `anon` key. -/
def CgroupV2ReadMemoryMetrics (usageContent limitContent : String)
    (statLines : List String) : Except String MemoryMetrics :=
  match readUint64FromFile usageContent with
  | .error e => .error ("failed to read memory.current: " ++ e)
  | .ok usage =>
    match readUint64FromFile limitContent with
    | .error e => .error ("failed to read memory.max: " ++ e)
    | .ok limit =>
      let stats := readMemoryStat statLines
      .ok (deriveMemoryMetrics usage limit (stats "anon") (stats "inactive_file"))

/-! ## Helper lemmas -/

lemma anyBeq_eq_mem (b : Int) (l : List Int) :
    l.any (fun r => r == b) = decide (b ∈ l) := by
  induction l with
  | nil => simp
  | cons x xs ih =>
    by_cases h : b = x
    · subst h
      simp
    · have hx : (x == b) = false := by
        simp only [beq_eq_false_iff_ne, ne_eq]
        exact fun hh => h hh.symm
      simp [List.any_cons, ih, hx, h]

lemma partitions_foldl_count (b : Int) (ps : List PartitionDetail) (acc : Nat) :
    ps.foldl
      (fun acc partition =>
        let isReplica := partition.Replicas.any (fun r => r == b)
        if !isReplica then acc
        else
          let inISR := partition.ISR.any (fun r => r == b)
          if !inISR then acc + 1 else acc)
      acc
    = acc + ps.countP (fun p => decide (b ∈ p.Replicas ∧ b ∉ p.ISR)) := by
  induction ps generalizing acc with
  | nil => simp
  | cons p ps ih =>
    rw [List.foldl_cons, ih]
    by_cases h1 : b ∈ p.Replicas <;> by_cases h2 : b ∈ p.ISR <;>
      simp [anyBeq_eq_mem, h1, h2, List.countP_cons] <;> omega

lemma underReplicatedCount_eq_countP (b : Int) (md : Metadata) :
    underReplicatedCount b md
      = ((md.Topics.map TopicDetail.Partitions).flatten).countP
          (fun p => decide (b ∈ p.Replicas ∧ b ∉ p.ISR)) := by
  unfold underReplicatedCount
  suffices h : ∀ (topics : List TopicDetail) (acc : Nat),
      topics.foldl
        (fun acc topic =>
          topic.Partitions.foldl
            (fun acc partition =>
              let isReplica := partition.Replicas.any (fun r => r == b)
              if !isReplica then acc
              else
                let inISR := partition.ISR.any (fun r => r == b)
                if !inISR then acc + 1 else acc)
            acc)
        acc
      = acc + ((topics.map TopicDetail.Partitions).flatten).countP
          (fun p => decide (b ∈ p.Replicas ∧ b ∉ p.ISR)) by
    simpa using h md.Topics 0
  intro topics
  induction topics with
  | nil => simp
  | cons t ts ih =>
    intro acc
    rw [List.foldl_cons, ih, partitions_foldl_count]
    simp [List.countP_append]
    omega

/-- C2: `UnderReplicatedPartitions` counts, per partition across all topics,
exactly the partitions whose replica list contains this broker and whose ISR
list does not; one such partition in each of two topics counts 2; a broker
that is a replica of no partition counts 0 regardless of ISR contents. -/
theorem underReplicatedPartitions_counts_per_partition :
    (∀ (b : Int) (md : Metadata) (ld : Except String DescribedLogDirs),
        UnderReplicatedPartitions b ⟨.ok md, ld⟩
          = .ok (((md.Topics.map TopicDetail.Partitions).flatten).countP
              (fun p => decide (b ∈ p.Replicas ∧ b ∉ p.ISR))))
    ∧ (∀ (b : Int) (md : Metadata) (ld : Except String DescribedLogDirs),
        (∀ t ∈ md.Topics, ∀ p ∈ t.Partitions, b ∉ p.Replicas) →
        UnderReplicatedPartitions b ⟨.ok md, ld⟩ = .ok 0)
    ∧ UnderReplicatedPartitions 2
        ⟨.ok ⟨[⟨2⟩], 0, [⟨[⟨[2, 1], [1]⟩]⟩, ⟨[⟨[2, 1], [1]⟩]⟩]⟩, .ok []⟩
        = .ok 2 := by
  refine ⟨?_, ?_, by rfl⟩
  · intro b md ld
    simp only [UnderReplicatedPartitions, underReplicatedCount_eq_countP]
  · intro b md ld h
    have hz : (((md.Topics.map TopicDetail.Partitions).flatten).countP
        (fun p => decide (b ∈ p.Replicas ∧ b ∉ p.ISR))) = 0 := by
      apply List.countP_eq_zero.mpr
      intro p hp
      simp only [List.mem_flatten, List.mem_map] at hp
      obtain ⟨ps, ⟨t, ht, rfl⟩, hpps⟩ := hp
      simp [h t ht p hpps]
    simp only [UnderReplicatedPartitions, underReplicatedCount_eq_countP, hz]

/-- C2 witness: the "broker is a replica of no partition" clause at a concrete
snapshot where the broker is absent from every ISR. -/
theorem underReplicatedPartitions_counts_per_partition_witness :
    UnderReplicatedPartitions 7
      ⟨.ok ⟨[⟨7⟩], 0, [⟨[⟨[0, 1], []⟩]⟩]⟩, .ok []⟩ = .ok 0 :=
  underReplicatedPartitions_counts_per_partition.2.1 7
    ⟨[⟨7⟩], 0, [⟨[⟨[0, 1], []⟩]⟩]⟩ (.ok []) (by decide)

lemma dirsError_isSome (ds : DescribedLogDirs) :
    ds.Error.isSome = ds.any (fun d => d.Err.isSome) := by
  induction ds with
  | nil => rfl
  | cons d ds ih =>
    cases h : d.Err <;>
      simp [DescribedLogDirs.Error, List.findSome?_cons, h] <;>
      simpa [DescribedLogDirs.Error] using ih

lemma logDirsHealthy_of_ok (adm : AdminClient) (ds : DescribedLogDirs)
    (hds : adm.logDirsResult = .ok ds) :
    LogDirsHealthy adm = .ok (!(ds.any (fun d => d.Err.isSome) || ds.anyFuture)) := by
  simp only [LogDirsHealthy, hds]
  cases h : ds.Error with
  | some err =>
    have ha : ds.any (fun d => d.Err.isSome) = true := by
      rw [← dirsError_isSome, h]
      rfl
    simp [ha]
  | none =>
    have ha : ds.any (fun d => d.Err.isSome) = false := by
      rw [← dirsError_isSome, h]
      rfl
    simp [ha]

/-- C5: `LogDirsHealthy` propagates an error (with the transport error text)
exactly when the describe call itself fails; on a successful call it returns
the structural verdict `false` (no error) exactly when some directory carries
its own error or some placement is flagged future. -/
theorem logDirsHealthy_verdicts (adm : AdminClient) :
    (∀ e, adm.logDirsResult = .error e →
        LogDirsHealthy adm = .error ("failed to describe log dirs: " ++ e))
    ∧ (∀ ds, adm.logDirsResult = .ok ds →
        LogDirsHealthy adm
          = .ok (!(ds.any (fun d => d.Err.isSome) || ds.anyFuture))) := by
  constructor
  · intro e he
    simp [LogDirsHealthy, he]
  · intro ds hds
    exact logDirsHealthy_of_ok adm ds hds

/-- C5 witness: a future placement alongside an error-free directory yields
the structural verdict `false`, and a directory-level error alone does too. -/
theorem logDirsHealthy_verdicts_witness :
    LogDirsHealthy ⟨.ok ⟨[], 0, []⟩, .ok [⟨none, [⟨true⟩]⟩]⟩ = .ok false
    ∧ LogDirsHealthy ⟨.ok ⟨[], 0, []⟩, .ok [⟨some "disk error", [⟨false⟩]⟩]⟩
        = .ok false := by
  constructor
  · have h := (logDirsHealthy_verdicts ⟨.ok ⟨[], 0, []⟩,
      .ok [⟨none, [⟨true⟩]⟩]⟩).2 [⟨none, [⟨true⟩]⟩] rfl
    simpa [DescribedLogDirs.anyFuture] using h
  · have h := (logDirsHealthy_verdicts ⟨.ok ⟨[], 0, []⟩,
      .ok [⟨some "disk error", [⟨false⟩]⟩]⟩).2 [⟨some "disk error", [⟨false⟩]⟩] rfl
    simpa [DescribedLogDirs.anyFuture] using h

/-- C7: `CheckLiveness` performs only the registration check (the trace is
exactly `[registration]`); an absent broker yields unhealthy with message
exactly "broker not found in cluster metadata", a present broker yields
healthy with an empty message. -/
theorem checkLiveness_only_registration :
    ∀ (b : Int) (md : Metadata) (ld : Except String DescribedLogDirs),
      CheckLiveness b (.ok ⟨.ok md, ld⟩)
        = (if md.Brokers.any (fun br => br.NodeID == b)
            then (⟨true, ""⟩ : CheckResult)
            else ⟨false, "broker not found in cluster metadata"⟩,
          [CheckName.registration]) := by
  intro b md ld
  simp only [CheckLiveness, BrokerInMetadata]
  cases h : md.Brokers.any (fun br => br.NodeID == b) <;> simp [h]

/-- C1: readiness runs the checks in the fixed order registration,
controller election, replica synchronization, log-directory health (every
trace is an initial segment of that order), and when the broker is absent
from the snapshot's broker set the verdict is unhealthy with message exactly
"broker not registered in cluster metadata" and only the registration check
was invoked. -/
theorem checkReadiness_stops_at_registration (b : Int) (md : Metadata)
    (ld : Except String DescribedLogDirs)
    (habs : md.Brokers.any (fun br => br.NodeID == b) = false) :
    CheckReadiness b (.ok ⟨.ok md, ld⟩)
      = (⟨false, "broker not registered in cluster metadata"⟩, [.registration])
    ∧ (∀ f : Except String AdminClient, ∃ rest,
        (CheckReadiness b f).2 ++ rest
          = [CheckName.registration, .controllerElection, .replicaSync,
              .logDirHealth]) := by
  constructor
  · simp [CheckReadiness, BrokerInMetadata, habs]
  · intro f
    unfold CheckReadiness
    repeat' split
    all_goals exact ⟨_, rfl⟩

/-- C1 witness: broker 5 absent from a two-broker snapshot. -/
theorem checkReadiness_stops_at_registration_witness :
    CheckReadiness 5 (.ok ⟨.ok ⟨[⟨0⟩, ⟨1⟩], 1, []⟩, .ok []⟩)
      = (⟨false, "broker not registered in cluster metadata"⟩, [.registration]) :=
  (checkReadiness_stops_at_registration 5 ⟨[⟨0⟩, ⟨1⟩], 1, []⟩ (.ok [])
    (by decide)).1

/-- C6 counterexample: with broker 0 registered, controller elected and no
under-replicated partitions, a future placement makes the log-directory check
fail structurally; `CheckReadiness` reports "log directories unhealthy", but
the error field of the HTTP readiness response is NOT that exact string. -/
theorem readinessHandler_logdir_message_counterexample :
    (CheckReadiness 0
        (.ok ⟨.ok ⟨[⟨0⟩], 0, []⟩, .ok [⟨none, [⟨true⟩]⟩]⟩)).1.Message
      = "log directories unhealthy"
    ∧ (ReadinessHandler 0
        (.ok ⟨.ok ⟨[⟨0⟩], 0, []⟩, .ok [⟨none, [⟨true⟩]⟩]⟩)).1.ErrorMessage
      ≠ "log directories unhealthy" := by
  constructor
  · rfl
  · decide

/-- C6 (amended): when the first three readiness checks pass and the
log-directory check returns a structural failure (no error), `CheckReadiness`
reports the message exactly "log directories unhealthy", while the error
field of the HTTP readiness response is the longer string
"log directories unhealthy (future partitions detected)". -/
theorem checkReadiness_logdir_failure_messages (b : Int) (md : Metadata)
    (ds : DescribedLogDirs)
    (hreg : md.Brokers.any (fun br => br.NodeID == b) = true)
    (hctl : 0 ≤ md.Controller)
    (hur : underReplicatedCount b md = 0)
    (hbad : (ds.any (fun d => d.Err.isSome) || ds.anyFuture) = true) :
    (CheckReadiness b (.ok ⟨.ok md, .ok ds⟩)).1
      = ⟨false, "log directories unhealthy"⟩
    ∧ (ReadinessHandler b (.ok ⟨.ok md, .ok ds⟩)).1.ErrorMessage
      = "log directories unhealthy (future partitions detected)" := by
  have hld : LogDirsHealthy ⟨.ok md, .ok ds⟩ = .ok false := by
    rw [logDirsHealthy_of_ok ⟨.ok md, .ok ds⟩ ds rfl, hbad]
    rfl
  constructor <;>
    simp [CheckReadiness, ReadinessHandler, BrokerInMetadata, ControllerElected,
      UnderReplicatedPartitions, hreg, hctl, hur, hld]

/-- C6 witness: a directory-level error alone (no future placements) at a
concrete passing snapshot. -/
theorem checkReadiness_logdir_failure_messages_witness :
    (CheckReadiness 0
        (.ok ⟨.ok ⟨[⟨0⟩], 0, []⟩, .ok [⟨some "disk error", [⟨false⟩]⟩]⟩)).1
      = ⟨false, "log directories unhealthy"⟩
    ∧ (ReadinessHandler 0
        (.ok ⟨.ok ⟨[⟨0⟩], 0, []⟩, .ok [⟨some "disk error", [⟨false⟩]⟩]⟩)).1.ErrorMessage
      = "log directories unhealthy (future partitions detected)" :=
  checkReadiness_logdir_failure_messages 0 ⟨[⟨0⟩], 0, []⟩
    [⟨some "disk error", [⟨false⟩]⟩] (by decide) (by decide) (by decide) (by decide)

/-- C8: SASL option selection succeeds exactly when the upper-cased mechanism
is PLAIN, SCRAM-SHA-256 or SCRAM-SHA-512 (so matching is case-insensitive),
and fails with an unsupported-mechanism error for every other string,
including the empty string. -/
theorem getSASLOpt_mechanisms :
    (∀ cfg : SASLConfig,
        (∃ opt, getSASLOpt cfg = .ok opt) ↔
          (goToUpper cfg.Mechanism = "PLAIN"
            ∨ goToUpper cfg.Mechanism = "SCRAM-SHA-256"
            ∨ goToUpper cfg.Mechanism = "SCRAM-SHA-512"))
    ∧ (∀ enabled user pass, ∃ e,
        getSASLOpt ⟨enabled, "", user, pass⟩ = .error e)
    ∧ (∃ opt, getSASLOpt ⟨true, "Scram-Sha-512", "u", "p"⟩ = .ok opt) := by
  refine ⟨?_, ?_, ⟨.scramSha512 "u" "p", by rfl⟩⟩
  · intro cfg
    by_cases h1 : goToUpper cfg.Mechanism = "PLAIN" <;>
      by_cases h2 : goToUpper cfg.Mechanism = "SCRAM-SHA-256" <;>
        by_cases h3 : goToUpper cfg.Mechanism = "SCRAM-SHA-512" <;>
          simp [getSASLOpt, h1, h2, h3]
  · intro enabled user pass
    exact ⟨_, by rfl⟩

/-- The spec's reading of the bootstrap list: the comma-joined list of the
generated addresses, with no trailing separator. -/
def commaJoined : List String → String
  | [] => ""
  | [s] => s
  | s :: t :: rest => s ++ "," ++ commaJoined (t :: rest)

lemma foldl_commaJoined (rest : List String) : ∀ a : String,
    rest.foldl (fun acc s => acc ++ "," ++ s) a = commaJoined (a :: rest) := by
  induction rest with
  | nil =>
    intro a
    rfl
  | cons x t ih =>
    intro a
    rw [List.foldl_cons, ih]
    cases t with
    | nil => rfl
    | cons y t2 => simp [commaJoined, String.append_assoc]

lemma goStringsJoin_comma (l : List String) :
    goStringsJoin l "," = commaJoined l := by
  cases l with
  | nil => rfl
  | cons a rest => exact foldl_commaJoined rest a

/-- C4: `BuildBootstrapServers` is total, returns the comma-joined address
list (no trailing separator) for indices 0 .. max(replicaCount,1)-1; replica
counts 0 and -1 behave exactly like 1; and the three-replica example yields
the spec's exact string. -/
theorem buildBootstrapServers_spec :
    (∀ (w l g : String) (rc p : Int),
        BuildBootstrapServers w l g rc p
          = commaJoined
              ((List.range (max rc 1).toNat).map (bootstrapAddress w l g p)))
    ∧ (∀ (w l g : String) (p : Int),
        BuildBootstrapServers w l g 0 p = BuildBootstrapServers w l g 1 p
          ∧ BuildBootstrapServers w l g (-1) p = BuildBootstrapServers w l g 1 p)
    ∧ BuildBootstrapServers "kafka" "aws-us-west-2" "test-gvc" 3 9092
      = "replica-0.kafka.aws-us-west-2.test-gvc.cpln.local:9092,replica-1.kafka.aws-us-west-2.test-gvc.cpln.local:9092,replica-2.kafka.aws-us-west-2.test-gvc.cpln.local:9092" := by
  refine ⟨?_, ?_, by rfl⟩
  · intro w l g rc p
    have hn : (if rc ≤ 0 then (1 : Int) else rc) = max rc 1 := by
      rcases le_or_lt rc 0 with h | h
      · rw [if_pos h, max_eq_right (by omega)]
      · rw [if_neg (by omega), max_eq_left (by omega)]
    simp only [BuildBootstrapServers, goStringsJoin_comma, hn]
  · intro w l g p
    exact ⟨rfl, rfl⟩

lemma deriveMemoryMetrics_props (usage limit rss inactiveFile : Nat) :
    (deriveMemoryMetrics usage limit rss inactiveFile).Usage = usage
    ∧ (deriveMemoryMetrics usage limit rss inactiveFile).Limit = limit
    ∧ (deriveMemoryMetrics usage limit rss inactiveFile).RSS = rss
    ∧ (deriveMemoryMetrics usage limit rss inactiveFile).InactiveFile = inactiveFile
    ∧ (deriveMemoryMetrics usage limit rss inactiveFile).WorkingSet
        = (if inactiveFile ≤ usage then usage - inactiveFile else 0)
    ∧ (limit = 0 →
        (deriveMemoryMetrics usage limit rss inactiveFile).OOMRatio = 0
          ∧ (deriveMemoryMetrics usage limit rss inactiveFile).OOMFloorRatio = 0)
    ∧ (0 < limit →
        (deriveMemoryMetrics usage limit rss inactiveFile).OOMRatio
            = (((deriveMemoryMetrics usage limit rss inactiveFile).WorkingSet : ℚ)
                / (limit : ℚ))
          ∧ (deriveMemoryMetrics usage limit rss inactiveFile).OOMFloorRatio
            = ((rss : ℚ) / (limit : ℚ))) := by
  by_cases h : 0 < limit <;>
    simp [deriveMemoryMetrics, h, ge_iff_le] <;> omega

/-- C9: for every successful cgroup-v1 memory read, the working set is
usage minus inactive-file clamped at 0; a limit file holding the token "max"
yields limit 0; with limit 0 both OOM ratios are 0; with limit positive they
are workingSet/limit and rss/limit. -/
theorem cgroupV1_memoryMetrics_derivation (usageContent limitContent : String)
    (statLines : List String) (m : MemoryMetrics)
    (h : CgroupV1ReadMemoryMetrics usageContent limitContent statLines = .ok m) :
    (m.WorkingSet = if m.InactiveFile ≤ m.Usage then m.Usage - m.InactiveFile else 0)
    ∧ (goTrimSpace limitContent = "max" → m.Limit = 0)
    ∧ (m.Limit = 0 → m.OOMRatio = 0 ∧ m.OOMFloorRatio = 0)
    ∧ (0 < m.Limit →
        m.OOMRatio = (m.WorkingSet : ℚ) / (m.Limit : ℚ)
          ∧ m.OOMFloorRatio = (m.RSS : ℚ) / (m.Limit : ℚ)) := by
  unfold CgroupV1ReadMemoryMetrics at h
  cases hu : readUint64FromFile usageContent with
  | error e =>
    rw [hu] at h
    exact absurd h (by simp)
  | ok usage =>
    rw [hu] at h
    cases hl : readUint64FromFile limitContent with
    | error e =>
      rw [hl] at h
      exact absurd h (by simp)
    | ok limit =>
      rw [hl] at h
      simp only [Except.ok.injEq] at h
      subst h
      obtain ⟨hU, hL, hR, hI, hW, hz, hp⟩ :=
        deriveMemoryMetrics_props usage limit
          (readMemoryStat statLines "rss") (readMemoryStat statLines "inactive_file")
      refine ⟨by rw [hW, hU, hI], ?_, ?_, ?_⟩
      · intro htrim
        unfold readUint64FromFile at hl
        rw [if_pos htrim] at hl
        simp only [Except.ok.injEq] at hl
        rw [hL, ← hl]
      · intro h0
        rw [hL] at h0
        exact hz h0
      · intro h0
        rw [hL] at h0
        obtain ⟨h1, h2⟩ := hp h0
        exact ⟨by rw [h1, hL], by rw [h2, hR, hL]⟩

/-- C9 witness: usage 50, inactive-file 100 clamps the working set to 0, and
the "max" limit token yields limit 0. -/
theorem cgroupV1_memoryMetrics_derivation_witness :
    ((⟨50, 0, 10, 100, 0, 0, 0⟩ : MemoryMetrics).WorkingSet
        = if (100 : Nat) ≤ 50 then 50 - 100 else 0)
    ∧ (⟨50, 0, 10, 100, 0, 0, 0⟩ : MemoryMetrics).OOMRatio = 0 := by
  have h := cgroupV1_memoryMetrics_derivation "50" "max"
    ["rss 10", "inactive_file 100"] ⟨50, 0, 10, 100, 0, 0, 0⟩ (by rfl)
  exact ⟨h.1, (h.2.2.1 rfl).1⟩

/-- C10: the cgroup v1 and v2 readers are equivalent up to the statistics key
naming: on the same usage and limit file contents and the same statistics
lines, whenever the map's "rss" entry (v1's RSS source) agrees with its
"anon" entry (v2's RSS source), the two readers produce identical
MemoryMetrics (and fail identically). -/
theorem cgroupReaders_agree (usageContent limitContent : String)
    (statLines : List String)
    (h : readMemoryStat statLines "rss" = readMemoryStat statLines "anon") :
    (CgroupV1ReadMemoryMetrics usageContent limitContent statLines).toOption
      = (CgroupV2ReadMemoryMetrics usageContent limitContent statLines).toOption := by
  unfold CgroupV1ReadMemoryMetrics CgroupV2ReadMemoryMetrics
  cases hu : readUint64FromFile usageContent with
  | error e => rfl
  | ok usage =>
    cases hl : readUint64FromFile limitContent with
    | error e => rfl
    | ok limit => simp [h]

/-- C10 witness: concrete contents whose statistics lines give "rss" and
"anon" the same value. -/
theorem cgroupReaders_agree_witness :
    (CgroupV1ReadMemoryMetrics "50" "100"
        ["rss 10", "anon 10", "inactive_file 3"]).toOption
      = (CgroupV2ReadMemoryMetrics "50" "100"
        ["rss 10", "anon 10", "inactive_file 3"]).toOption :=
  cgroupReaders_agree "50" "100" ["rss 10", "anon 10", "inactive_file 3"] (by rfl)

lemma lastIndexOf_eq_none (c : Char) (cs : List Char) :
    lastIndexOf c cs = none ↔ c ∉ cs := by
  induction cs with
  | nil => simp [lastIndexOf]
  | cons x xs ih =>
    simp only [lastIndexOf]
    cases h : lastIndexOf c xs with
    | some i =>
      have hc : c ∈ xs := by
        by_contra hc
        rw [ih.mpr hc] at h
        exact Option.noConfusion h
      simp [hc]
    | none =>
      have hc : c ∉ xs := ih.mp h
      by_cases hx : x = c
      · subst hx
        simp
      · have hcx : ¬c = x := fun hh => hx hh.symm
        simp [hx, hc, hcx]

lemma lastIndexOf_some_decomp (c : Char) :
    ∀ (cs : List Char) (i : Nat), lastIndexOf c cs = some i →
      ∃ pre suf, cs = pre ++ c :: suf ∧ pre.length = i ∧ c ∉ suf := by
  intro cs
  induction cs with
  | nil => intro i h; exact Option.noConfusion h
  | cons x xs ih =>
    intro i h
    simp only [lastIndexOf] at h
    cases h2 : lastIndexOf c xs with
    | some j =>
      simp only [h2, Option.some.injEq] at h
      obtain ⟨pre, suf, hcs, hlen, hns⟩ := ih j h2
      exact ⟨x :: pre, suf, by rw [List.cons_append, ← hcs],
        by simp [hlen, ← h], hns⟩
    | none =>
      simp only [h2] at h
      by_cases hx : x = c
      · rw [if_pos hx] at h
        simp only [Option.some.injEq] at h
        exact ⟨[], xs, by rw [hx, List.nil_append], by simp [← h], (lastIndexOf_eq_none c xs).mp h2⟩
      · rw [if_neg hx] at h
        exact Option.noConfusion h

lemma lastIndexOf_append (c : Char) :
    ∀ (pre suf : List Char), c ∉ suf →
      lastIndexOf c (pre ++ c :: suf) = some pre.length := by
  intro pre
  induction pre with
  | nil =>
    intro suf hns
    simp only [List.nil_append, lastIndexOf]
    rw [(lastIndexOf_eq_none c suf).mpr hns]
    simp
  | cons p ps ih =>
    intro suf hns
    rw [List.cons_append]
    simp only [lastIndexOf, List.append_eq, ih suf hns, List.length_cons]

lemma drop_after_last (c : Char) (pre suf : List Char) :
    (pre ++ c :: suf).drop (pre.length + 1) = suf := by
  rw [show pre ++ c :: suf = (pre ++ [c]) ++ suf by simp]
  rw [show pre.length + 1 = (pre ++ [c]).length by simp]
  exact List.drop_left (pre ++ [c]) suf

/-- C3: broker-ID parsing errors when the hostname has no hyphen or ends in a
hyphen; it returns `v` exactly when the segment after the LAST hyphen (no
later hyphen exists in it) parses as a base-10 32-bit integer `v` — in
particular "kafka-7" gives 7 and "my-kafka-cluster-2" gives 2. -/
theorem parseBrokerIDFromHostname_spec :
    (∀ H : String, '-' ∉ H.data → ∃ e, ParseBrokerIDFromHostname H = .error e)
    ∧ (∀ (H : String) (pre : List Char), H.data = pre ++ ['-'] →
        ∃ e, ParseBrokerIDFromHostname H = .error e)
    ∧ (∀ (H : String) (v : Int),
        ParseBrokerIDFromHostname H = .ok v ↔
          ∃ pre suf, H.data = pre ++ '-' :: suf ∧ '-' ∉ suf
            ∧ goParseInt32 suf = some v)
    ∧ ParseBrokerIDFromHostname "kafka-7" = .ok 7
    ∧ ParseBrokerIDFromHostname "my-kafka-cluster-2" = .ok 2 := by
  refine ⟨?_, ?_, ?_, by rfl, by rfl⟩
  · intro H hno
    refine ⟨"invalid hostname format (no hyphen): " ++ H, ?_⟩
    simp only [ParseBrokerIDFromHostname, (lastIndexOf_eq_none '-' H.data).mpr hno]
  · intro H pre hdata
    cases h2 : lastIndexOf '-' H.data with
    | none =>
      exfalso
      have hno : '-' ∉ H.data := (lastIndexOf_eq_none '-' H.data).mp h2
      apply hno
      rw [hdata]
      simp
    | some i =>
      obtain ⟨pre2, suf, hcs, hlen, hns⟩ := lastIndexOf_some_decomp '-' H.data i h2
      have hsuf : suf = [] := by
        rcases List.eq_nil_or_concat suf with h | ⟨s2, a, rfl⟩
        · exact h
        · exfalso
          simp only [List.concat_eq_append] at hcs hns
          have g1 : H.data.getLast? = some '-' := by
            rw [hdata]
            exact List.getLast?_concat pre
          have g2 : H.data.getLast? = some a := by
            rw [hcs, show pre2 ++ '-' :: (s2 ++ [a]) = (pre2 ++ '-' :: s2) ++ [a]
              by simp]
            exact List.getLast?_concat _
          rw [g1] at g2
          have ha : '-' = a := by injection g2
          apply hns
          rw [← ha]
          simp
      subst hsuf
      have hlendata : H.data.length = i + 1 := by
        rw [hcs, List.length_append, ← hlen]
        simp
      refine ⟨"invalid hostname format (trailing hyphen): " ++ H, ?_⟩
      simp only [ParseBrokerIDFromHostname, h2]
      rw [if_pos (by omega : i = H.data.length - 1)]
  · intro H v
    constructor
    · intro hok
      simp only [ParseBrokerIDFromHostname] at hok
      cases h2 : lastIndexOf '-' H.data with
      | none =>
        simp only [h2] at hok
        exact absurd hok (by simp)
      | some i =>
        simp only [h2] at hok
        by_cases htrail : i = H.data.length - 1
        · rw [if_pos htrail] at hok
          exact absurd hok (by simp)
        · rw [if_neg htrail] at hok
          cases hp : goParseInt32 (H.data.drop (i + 1)) with
          | none =>
            simp only [hp] at hok
            exact absurd hok (by simp)
          | some v2 =>
            simp only [hp, Except.ok.injEq] at hok
            obtain ⟨pre, suf, hcs, hlen, hns⟩ :=
              lastIndexOf_some_decomp '-' H.data i h2
            have hdrop : H.data.drop (i + 1) = suf := by
              rw [hcs, ← hlen]
              exact drop_after_last '-' pre suf
            exact ⟨pre, suf, hcs, hns, by rw [← hdrop, hp, hok]⟩
    · rintro ⟨pre, suf, hcs, hns, hp⟩
      have h2 : lastIndexOf '-' H.data = some pre.length := by
        rw [hcs]
        exact lastIndexOf_append '-' pre suf hns
      have hsufne : suf ≠ [] := by
        intro hnil
        rw [hnil] at hp
        exact Option.noConfusion hp
      have hlendata : H.data.length = pre.length + suf.length + 1 := by
        rw [hcs, List.length_append]
        simp
        omega
      have htrail : ¬pre.length = H.data.length - 1 := by
        have hpos : 0 < suf.length := List.length_pos.mpr hsufne
        omega
      have hdrop : H.data.drop (pre.length + 1) = suf := by
        rw [hcs]
        exact drop_after_last '-' pre suf
      simp only [ParseBrokerIDFromHostname, h2, if_neg htrail, hdrop, hp]

/-- C3 witness: a hyphen-free hostname and a trailing-hyphen hostname both
fail, via the first two clauses at concrete inputs. -/
theorem parseBrokerIDFromHostname_spec_witness :
    (∃ e, ParseBrokerIDFromHostname "localhost" = .error e)
    ∧ (∃ e, ParseBrokerIDFromHostname "kafka-" = .error e) :=
  ⟨parseBrokerIDFromHostname_spec.1 "localhost" (by decide),
   parseBrokerIDFromHostname_spec.2.1 "kafka-" "kafka".data (by decide)⟩
